import Mathlib

/-
Verification of the chat-identifier resolution and member/activity aggregation
pipeline of the telegram_user_state repository.

The Python sources are embedded shallowly:
  - Python str is modeled as Lean String; character-level operations work on
    String.data (List Char).  Python str.lower is modeled with Char.toLower,
    which agrees with Python on ASCII (all inputs the code compares lowercased
    are scheme names and link domains, which are ASCII).
  - Python int is modeled as Int, datetime timestamps as Nat (the code only
    stores and formats them; ISO rendering is abstracted to the numeral
    rendering, which none of the verified properties depend on).
  - Python dicts built by first-seen-wins insertion are modeled as association
    lists (List (Int, v)) appended only when the key is absent, so the list
    length equals the dict length and lookup matches dict access.
  - Remote calls (Telethon) are modeled by environments that supply each call
    outcome explicitly: a paged stream is a list of yielded items plus an
    optional error raised after them; a fallible call is an Except value.
-/

/-! ## Python string primitives (chat_utils.py uses strip, lower, lstrip,
    startswith, re.fullmatch, re.sub, urllib.parse.urlparse, int). -/

/-- Python str whitespace characters used by str.strip with no argument. -/
def pyWsChar (c : Char) : Bool :=
  c == ' ' || c == '\t' || c == '\n' || c == '\r' || c == '\x0b' || c == '\x0c'

/-- Strip Python whitespace from both ends of a character list (str.strip). -/
def stripWsList (l : List Char) : List Char :=
  ((l.dropWhile pyWsChar).reverse.dropWhile pyWsChar).reverse

/-- Python str.strip() on a String. -/
def pyStrip (s : String) : String := ⟨stripWsList s.data⟩

/-- Boolean list-prefix test (Python str.startswith). -/
def listLeads : List Char → List Char → Bool
  | [], _ => true
  | _ :: _, [] => false
  | a :: ps, b :: ls => a == b && listLeads ps ls

/-- Python str.lower, restricted to the ASCII mapping. -/
def pyLowerList (l : List Char) : List Char := l.map Char.toLower

/-- Value of an all-digit character list; none when empty or a character is
    not a decimal digit.  Helper for the model of Python int(...). -/
def digitsVal (l : List Char) : Option Nat :=
  if l ≠ [] ∧ l.all Char.isDigit then
    some (l.foldl (fun a c => a * 10 + (c.toNat - 48)) 0)
  else none

/-- Model of Python int(str): an optional single sign followed by at least one
    decimal digit.  (Python also accepts surrounding whitespace and inner
    underscores; no call site in chat_utils.py can pass such a string, since
    every argument is digit/dash filtered beforehand.) -/
def pyInt? (l : List Char) : Option Int :=
  match l with
  | [] => none
  | c :: rest =>
    if c == '-' then (digitsVal rest).map (fun n => -(n : Int))
    else if c == '+' then (digitsVal rest).map (fun n => (n : Int))
    else (digitsVal (c :: rest)).map (fun n => (n : Int))

/-- Split a character list on a separator character (Python str.split with a
    one-character separator, on a non-empty string). -/
def splitOnChar (sep : Char) (l : List Char) : List (List Char) :=
  l.foldr
    (fun c acc =>
      if c == sep then [] :: acc
      else
        match acc with
        | g :: gs => (c :: g) :: gs
        | [] => [[c]])
    [[]]

/-! ## chat_utils.py: NormalizedChat and normalize_chat_identifier -/

/-- Python Union[str, int] used for the target field of NormalizedChat. -/
inductive Target where
  | s : String → Target
  | i : Int → Target
deriving DecidableEq

/-- chat_utils.py lines 14-18: frozen dataclass NormalizedChat. -/
structure NormalizedChat where
  raw : String
  target : Target
  invite_hash : Option String
deriving DecidableEq

/-- The possible runtime types of the chat argument of
    normalize_chat_identifier: NormalizedChat, int, str, or anything else
    (the code returns None for the last). -/
inductive ChatInput where
  | ofChat : NormalizedChat → ChatInput
  | ofInt : Int → ChatInput
  | ofStr : String → ChatInput
  | otherType : ChatInput
deriving DecidableEq

/-- chat_utils.py line 35: re.fullmatch of -?100 followed by 5 or more
    digits. -/
def channelPat (l : List Char) : Bool :=
  let t := if listLeads ['-'] l then l.drop 1 else l
  listLeads ['1', '0', '0'] t && decide (5 ≤ (t.drop 3).length) && (t.drop 3).all Char.isDigit

/-- chat_utils.py lines 43-50: recognized short-link domain aliases, compared
    against the lowercased netloc. -/
def domainAliases : List (List Char) :=
  ["t.me".data, "telegram.me".data, "telegram.dog".data,
   "www.t.me".data, "www.telegram.me".data, "www.telegram.dog".data]

/-- True when the lowercased input starts with http:// or https://
    (chat_utils.py line 58). -/
def urlSchemeHit (r : String) : Bool :=
  listLeads "http://".data (pyLowerList r.data) || listLeads "https://".data (pyLowerList r.data)

/-- The characters after the scheme (urlparse splits the rest into netloc,
    path, query, fragment). -/
def urlAfterScheme (r : String) : List Char :=
  if listLeads "http://".data (pyLowerList r.data) then r.data.drop 7 else r.data.drop 8

/-- urlparse netloc: from after the scheme separator up to the first slash,
    question mark or hash. -/
def urlNetloc (r : String) : List Char :=
  (urlAfterScheme r).takeWhile (fun c => !(c == '/' || c == '?' || c == '#'))

/-- urlparse path: after the netloc, up to the first question mark or hash.
    (urlparse would additionally split a ;parameter suffix off the last
    segment; no recognized link shape contains one.) -/
def urlPath (r : String) : List Char :=
  ((urlAfterScheme r).drop (urlNetloc r).length).takeWhile (fun c => !(c == '?' || c == '#'))

/-- chat_utils.py line 64: path.strip of slashes. -/
def stripSlashes (l : List Char) : List Char :=
  ((l.dropWhile (· == '/')).reverse.dropWhile (· == '/')).reverse

/-- chat_utils.py lines 64-65: path segments (empty path gives no parts). -/
def urlParts (r : String) : List (List Char) :=
  let stripped := stripSlashes (urlPath r)
  if stripped = [] then [] else splitOnChar '/' stripped

/-- chat_utils.py lines 68-81: the target computed for a /c/NUMBER link.
    none when the digit/dash filtered second segment is empty, in which case
    the code falls through to the later branches. -/
def cTarget (p1 : List Char) : Option Target :=
  let numeric := p1.filter (fun c => c.isDigit || c == '-')
  if numeric = [] then none
  else if listLeads "-100".data numeric then
    some (match pyInt? numeric with
          | some n => Target.i n
          | none => Target.s ⟨numeric⟩)
  else
    let full := "-100".data ++ numeric.dropWhile (· == '-')
    some (match pyInt? full with
          | some n => Target.i n
          | none => Target.s ⟨full⟩)

/-- chat_utils.py lines 85-88: the +invite segment branch and the public
    handle fallback inside a recognized URL. -/
def urlTailBranch (r : String) (first : List Char) : NormalizedChat :=
  if listLeads ['+'] first then ⟨r, Target.s r, some ⟨first.dropWhile (· == '+')⟩⟩
  else ⟨r, Target.s ⟨first⟩, none⟩

/-- chat_utils.py lines 67-88: dispatch on the first path segment of a
    recognized URL with a non-empty path. -/
def urlBranch (r : String) (first : List Char) (rest : List (List Char)) : NormalizedChat :=
  match (if first = "c".data then
           match rest with
           | p1 :: _ => cTarget p1
           | [] => none
         else none) with
  | some t => ⟨r, t, none⟩
  | none =>
    match rest with
    | p1 :: _ =>
      if first = "joinchat".data ∨ first = "addstickers".data then ⟨r, Target.s r, some ⟨p1⟩⟩
      else urlTailBranch r first
    | [] => urlTailBranch r first

/-- chat_utils.py lines 58-88: the URL recognition block; none means the code
    falls through to the bare +invite and literal handle branches. -/
def urlTry (r : String) : Option NormalizedChat :=
  if urlSchemeHit r then
    if pyLowerList (urlNetloc r) ∈ domainAliases then
      match urlParts r with
      | [] => none
      | first :: rest => some (urlBranch r first rest)
    else none
  else none

/-- chat_utils.py lines 34-94: normalization of a stripped non-empty string. -/
def normCore (r : String) : NormalizedChat :=
  if channelPat r.data then
    ⟨r, (match pyInt? r.data with
         | some n => Target.i n
         | none => Target.s r), none⟩
  else
    match urlTry r with
    | some c => c
    | none =>
      if listLeads ['+'] r.data then ⟨r, Target.s r, some ⟨r.data.dropWhile (· == '+')⟩⟩
      else ⟨r, Target.s r, none⟩

/-- chat_utils.py lines 21-94: normalize_chat_identifier. -/
def normalize_chat_identifier : ChatInput → Option NormalizedChat
  | ChatInput.ofChat c => some c
  | ChatInput.ofInt n => some ⟨toString n, Target.i n, none⟩
  | ChatInput.otherType => none
  | ChatInput.ofStr s =>
    let raw := pyStrip s
    if raw.data = [] then none else some (normCore raw)

/-! ## member_export.py: activity correlator (_collect_activity_maps) -/

/-- One entry of the reaction list fetched for a message
    (member_export.py lines 176-190): the reacting peer when it is a user,
    the emoji label, and the reaction timestamp. -/
structure ReactionEntry where
  user_id : Option Int
  emoji : Option String
  date : Option Nat
deriving DecidableEq

/-- A scanned message: its sender (None for service or channel posts), its
    timestamp, and the reaction entries the paged reaction fetch returns for
    it.  A message with no reaction summary, and a message whose reaction
    fetch fails with an RPCError (lines 136, 173-174), both contribute the
    empty entry list. -/
structure Msg where
  sender_id : Option Int
  date : Nat
  reactions : List ReactionEntry
deriving DecidableEq

/-- Lookup in an association list modeling a Python dict. -/
def lookupKey {v : Type} (u : Int) : List (Int × v) → Option v
  | [] => none
  | (k, a) :: rest => if k = u then some a else lookupKey u rest

/-- member_export.py lines 132-134: record the sender timestamp when the
    sender is a known participant with no recorded last post yet. -/
def updatePost (pids : Finset Int) (m : Msg) (lp : List (Int × Nat)) : List (Int × Nat) :=
  match m.sender_id with
  | some u => if u ∈ pids ∧ lookupKey u lp = none then lp ++ [(u, m.date)] else lp
  | none => lp

/-- member_export.py lines 136-140: record first-seen reactions of known
    participants. -/
def updateReact (pids : Finset Int) (es : List ReactionEntry)
    (lr : List (Int × (Option String × Option Nat))) : List (Int × (Option String × Option Nat)) :=
  es.foldl
    (fun acc e =>
      match e.user_id with
      | some u => if u ∈ pids ∧ lookupKey u acc = none then acc ++ [(u, (e.emoji, e.date))] else acc
      | none => acc)
    lr

/-- The two activity maps of _collect_activity_maps. -/
structure ScanState where
  lastPost : List (Int × Nat)
  lastReaction : List (Int × (Option String × Option Nat))
deriving DecidableEq

/-- Processing of one scanned message (loop body, lines 131-140). -/
def scanStep (pids : Finset Int) (st : ScanState) (m : Msg) : ScanState :=
  ⟨updatePost pids m st.lastPost, updateReact pids m.reactions st.lastReaction⟩

/-- member_export.py line 145: the completeness test deciding the break. -/
def scanDone (pids : Finset Int) (st : ScanState) : Bool :=
  st.lastPost.length == pids.card && st.lastReaction.length == pids.card

/-- The message loop of _collect_activity_maps with its break, returning the
    final maps and the number of messages scanned.  The progress emissions
    (lines 142-143, 148-149) carry no data and are not modeled. -/
def scanLoop (pids : Finset Int) : List Msg → ScanState → ScanState × Nat
  | [], st => (st, 0)
  | m :: rest, st =>
    let st' := scanStep pids st m
    if scanDone pids st' then (st', 1)
    else
      let r := scanLoop pids rest st'
      (r.1, r.2 + 1)

/-- member_export.py lines 119-151: _collect_activity_maps.  iter_messages
    with limit=history_limit yields at most history_limit messages of the
    newest-first stream msgs. -/
def collectActivityMaps (pids : Finset Int) (historyLimit : Nat) (msgs : List Msg) :
    ScanState × Nat :=
  scanLoop pids (msgs.take historyLimit) ⟨[], []⟩

/-- The same per-message processing without the break, used to state what the
    maps contain after a given number of scanned messages. -/
def scanFold (pids : Finset Int) (msgs : List Msg) (st : ScanState) : ScanState :=
  msgs.foldl (scanStep pids) st

/-! ## member_export.py: participants, rows and summary -/

/-- The ChannelParticipant variant attached to a user in admin mode
    (member_export.py lines 22-33, 75-84). -/
inductive PVariant where
  | plain
  | creator
  | admin
  | selfMember
  | banned
  | leftChat
deriving DecidableEq

/-- The participant attribute of an enumerated user: its variant and optional
    join date. -/
structure PInfo where
  variant : PVariant
  date : Option Nat
deriving DecidableEq

/-- An enumerated participant as used by export_member_data. -/
structure PUser where
  id : Int
  username : Option String
  first_name : Option String
  last_name : Option String
  bot : Bool
  participant : Option PInfo
deriving DecidableEq

/-- member_export.py lines 75-84: _status_from_participant.  The isinstance
    chain maps admin/creator to admin, banned and left to restricted, and
    everything else (plain member, self, or no participant info) to member. -/
def statusFromParticipant : Option PInfo → String
  | some ⟨PVariant.admin, _⟩ => "admin"
  | some ⟨PVariant.creator, _⟩ => "admin"
  | some ⟨PVariant.banned, _⟩ => "restricted"
  | some ⟨PVariant.leftChat, _⟩ => "restricted"
  | _ => "member"

/-- member_export.py lines 54-60: _format_dt.  Timestamps are abstracted to
    naturals, so the ISO rendering is modeled as the numeral rendering; an
    absent timestamp renders as the empty string. -/
def formatDt : Option Nat → String
  | none => ""
  | some t => toString t

/-- member_export.py lines 63-72: _format_reaction, with Python truthiness of
    the emoji string (None and the empty string are falsy). -/
def formatReaction : Option (Option String × Option Nat) → String
  | none => ""
  | some (emoji, date) =>
    let ts := formatDt date
    let e := match emoji with
             | some x => x
             | none => ""
    if e ≠ "" ∧ ts ≠ "" then e ++ " @ " ++ ts
    else if e ≠ "" then e
    else ts

/-- One CSV row (member_export.py lines 309-322).  The two admin-only fields
    are none when the row is built in member mode (the code omits the keys). -/
structure Row where
  user_id : String
  username : String
  is_bot : String
  is_recent : String
  last_post : String
  last_reaction : String
  join_date : Option String
  status : Option String
deriving DecidableEq

/-- member_export.py lines 303-324: build the row of one participant. -/
def rowOf (adminMode : Bool) (recentIds : Finset Int) (lp : List (Int × Nat))
    (lr : List (Int × (Option String × Option Nat))) (u : PUser) : Row :=
  let uname0 := match u.username with
                | some x => x
                | none => ""
  let uname :=
    if uname0 = "" then
      let fn := match u.first_name with
                | some x => x
                | none => ""
      let ln := match u.last_name with
                | some x => x
                | none => ""
      let joined := pyStrip (String.intercalate " " ([fn, ln].filter (· ≠ "")))
      if joined.data = [] then "(no username)" else joined
    else uname0
  ⟨toString u.id,
   uname,
   if u.bot then "true" else "false",
   if u.id ∈ recentIds then "true" else "false",
   formatDt (lookupKey u.id lp),
   formatReaction (lookupKey u.id lr),
   if adminMode then some (formatDt (match u.participant with
                                     | some pi => pi.date
                                     | none => none)) else none,
   if adminMode then some (statusFromParticipant u.participant) else none⟩

/-- member_export.py lines 302-324: one row per entry of the participant
    list, in order. -/
def buildRows (adminMode : Bool) (ps : List PUser) (recentIds : Finset Int)
    (lp : List (Int × Nat)) (lr : List (Int × (Option String × Option Nat))) : List Row :=
  ps.map (rowOf adminMode recentIds lp lr)

/-- member_export.py lines 266-274: the member-mode fallback loop collecting
    one synthesized participant per distinct truthy sender id, capped at
    historyLimit collected participants.  lookup models client.get_entity on
    a sender id (its possible failure is not a subject of any claim). -/
def fallbackLoop (lookup : Int → PUser) (historyLimit : Nat) :
    List Msg → List PUser → Finset Int → List PUser
  | [], acc, _ => acc
  | m :: rest, acc, seen =>
    match m.sender_id with
    | some sid =>
      if sid ≠ 0 ∧ sid ∉ seen then
        let acc' := acc ++ [lookup sid]
        if historyLimit ≤ acc'.length then acc'
        else fallbackLoop lookup historyLimit rest acc' (insert sid seen)
      else fallbackLoop lookup historyLimit rest acc seen
    | none => fallbackLoop lookup historyLimit rest acc seen

/-- member_export.py lines 262-274: the fallback applied to the newest-first
    message stream bounded by iter_messages limit=history_limit. -/
def fallbackParticipants (lookup : Int → PUser) (historyLimit : Nat) (msgs : List Msg) :
    List PUser :=
  fallbackLoop lookup historyLimit (msgs.take historyLimit) [] ∅

/-! ## member_export.py: bots/recent enumeration and the export run -/

/-- The two exception classes caught at the enumeration boundary
    (member_export.py lines 98, 109): ChatAdminRequiredError and RPCError. -/
inductive EnumErr where
  | chatAdminRequired
  | rpcError
deriving DecidableEq

/-- A server-side filtered participant stream: the users it yields, then an
    optional error it raises after them (a stream failing on its first
    request has an empty yields list). -/
structure StreamRes where
  yields : List PUser
  failAfter : Option EnumErr
deriving DecidableEq

/-- member_export.py lines 87-116: _collect_bots_and_recent.  A failing bot
    stream resets the count to 0 (line 101); a failing recent stream keeps
    the ids already added, since the except branch on lines 109-111 does not
    clear the set. -/
def collectBotsAndRecent (bots recent : StreamRes) : Nat × Finset Int :=
  let botCount := match bots.failAfter with
                  | some _ => 0
                  | none => bots.yields.length
  let recentIds := recent.yields.foldl (fun s u => insert u.id s) (∅ : Finset Int)
  (botCount, recentIds)

/-- The errors surfaced by the modeled run. -/
inductive ExpErr where
  | badMode
  | badChat
  | unresolvedInvite
  | nameErrorUAP
  | userAlreadyParticipant
  | invalidCredentials
  | rpc
  | chatAdminRequired
  | otherError
deriving DecidableEq

/-- The entity fields the pipeline reads (chat title resolution,
    member_export.py lines 241-246). -/
structure Entity where
  id : Int
  title : Option String
  username : Option String
  first_name : Option String
deriving DecidableEq

/-- The shape of a CheckChatInviteRequest response: already a participant
    (ChatInviteAlready), joinable but not joined (ChatInvite), or any other
    unexpected shape. -/
inductive InviteResp where
  | already
  | invite
  | otherShape
deriving DecidableEq

/-- The outcomes of the remote calls resolve_chat_entity can make: the first
    and (textually present) second CheckChatInviteRequest, get_entity on the
    invite chat, and get_entity on the target. -/
structure ResolverEnv where
  inviteCheck1 : Except ExpErr InviteResp
  inviteCheck2 : Except ExpErr InviteResp
  entityOfInviteChat : Except ExpErr Entity
  entityOfTarget : Except ExpErr Entity

/-- chat_utils.py lines 97-109: resolve_chat_entity.  The except clause on
    line 102 names UserAlreadyParticipantError, which is never imported into
    chat_utils.py and is not a builtin, so when the first invite-check call
    raises anything, evaluating the handler raises NameError; the retry on
    line 103 (inviteCheck2) is unreachable. -/
def resolveChatEntity (env : ResolverEnv) (chat : NormalizedChat) : Except ExpErr Entity :=
  match chat.invite_hash with
  | some _ =>
    match env.inviteCheck1 with
    | Except.error _ => Except.error ExpErr.nameErrorUAP
    | Except.ok resp =>
      match resp with
      | InviteResp.already => env.entityOfInviteChat
      | InviteResp.invite => Except.error ExpErr.unresolvedInvite
      | InviteResp.otherShape => Except.error ExpErr.unresolvedInvite
  | none => env.entityOfTarget

/-- Python: a or b on optional strings, where None and the empty string are
    falsy (chat title fallback chain, member_export.py lines 241-246). -/
def pyOrStr (a : Option String) (b : String) : String :=
  match a with
  | some x => if x = "" then b else x
  | none => b

/-- member_export.py lines 241-246: entity title, else username, else first
    name, else the raw reference. -/
def chatTitleOf (e : Entity) (raw : String) : String :=
  pyOrStr e.title (pyOrStr e.username (pyOrStr e.first_name raw))

/-- member_export.py lines 45-51: the summary record. -/
structure ExportSummary where
  total_members : Nat
  bot_count : Nat
  recent_count : Nat
  csv_path : String
  chat_title : String
deriving DecidableEq

/-- Outcomes of every remote interaction of one export run.  The primary
    participant stream and the activity message stream are Except values
    because their errors propagate (no catch around them); the bot and recent
    streams carry their errors inside StreamRes because _collect_bots_and_
    recent catches them.  Session-file cloning (lines 195-210, 230) touches
    no network resource and is not modeled. -/
structure ExportEnv where
  startResult : Except ExpErr Unit
  resolver : ResolverEnv
  botStream : StreamRes
  recentStream : StreamRes
  mainParticipants : Except ExpErr (List PUser)
  fallbackMsgs : List Msg
  entityLookup : Int → PUser
  scanMsgs : Except ExpErr (List Msg)
  writeResult : Except ExpErr Unit

/-- Whether the run constructed the TelegramClient, opened the network
    session (client.start connects before authenticating), and disconnected
    it. -/
structure SessionTrace where
  clientConstructed : Bool
  sessionOpened : Bool
  disconnected : Bool
deriving DecidableEq

/-- member_export.py lines 239-343: the body of the try block, from chat
    resolution to the summary.  The CSV writer runs only after the full row
    set is built (lines 326-331). -/
def exportBody (mode : String) (nc : NormalizedChat) (historyLimit : Nat)
    (outputPath : String) (env : ExportEnv) : Except ExpErr (ExportSummary × List Row) :=
  match resolveChatEntity env.resolver nc with
  | Except.error e => Except.error e
  | Except.ok entity =>
    let chatTitle := chatTitleOf entity nc.raw
    let bcR := collectBotsAndRecent env.botStream env.recentStream
    match env.mainParticipants with
    | Except.error e => Except.error e
    | Except.ok ps0 =>
      let ps := if ps0 = [] ∧ mode = "member" then
                  fallbackParticipants env.entityLookup historyLimit env.fallbackMsgs
                else ps0
      let pids := ps.foldl (fun s u => insert u.id s) (∅ : Finset Int)
      match env.scanMsgs with
      | Except.error e => Except.error e
      | Except.ok msgs =>
        let scan := collectActivityMaps pids historyLimit msgs
        let rows := buildRows (mode = "admin") ps bcR.2 scan.1.lastPost scan.1.lastReaction
        match env.writeResult with
        | Except.error e => Except.error e
        | Except.ok _ => Except.ok (⟨ps.length, bcR.1, bcR.2.card, outputPath, chatTitle⟩, rows)

/-- member_export.py lines 344-350: the finally block runs after the body,
    whether it returned or raised, and disconnects the client. -/
def exportFinally (body : Except ExpErr (ExportSummary × List Row)) :
    Except ExpErr (ExportSummary × List Row) × SessionTrace :=
  match body with
  | Except.error e => (Except.error e, ⟨true, true, true⟩)
  | Except.ok res => (Except.ok res, ⟨true, true, true⟩)

/-- member_export.py lines 213-350: export_member_data.  The mode check
    (line 227) and the normalization check (lines 232-234) run before the
    client is constructed (line 236); client.start (line 237) runs before
    the try/finally, so a start failure leaves the opened session without
    the disconnect the finally block would have issued. -/
def exportMemberData (mode : String) (chat : ChatInput) (historyLimit : Nat)
    (outputPath : String) (env : ExportEnv) :
    Except ExpErr (ExportSummary × List Row) × SessionTrace :=
  if mode ≠ "member" ∧ mode ≠ "admin" then
    (Except.error ExpErr.badMode, ⟨false, false, false⟩)
  else
    match normalize_chat_identifier chat with
    | none => (Except.error ExpErr.badChat, ⟨false, false, false⟩)
    | some nc =>
      match env.startResult with
      | Except.error e => (Except.error e, ⟨true, true, false⟩)
      | Except.ok _ => exportFinally (exportBody mode nc historyLimit outputPath env)

/-- The summary of a finished run, none when the run failed. -/
def summaryOf : Except ExpErr (ExportSummary × List Row) → Option ExportSummary
  | Except.ok (s, _) => some s
  | Except.error _ => none

/-- The row set of a finished run, none when the run failed. -/
def rowsOf : Except ExpErr (ExportSummary × List Row) → Option (List Row)
  | Except.ok (_, rows) => some rows
  | Except.error _ => none

/-- The environment with the two filtered enumeration streams replaced
    (used to state that nothing else of a run depends on them). -/
def setStreams (env : ExportEnv) (bots recent : StreamRes) : ExportEnv :=
  ⟨env.startResult, env.resolver, bots, recent, env.mainParticipants,
   env.fallbackMsgs, env.entityLookup, env.scanMsgs, env.writeResult⟩

/-- The stream-independent projection of a row: its user id, last post and
    last reaction fields. -/
def rowCore (r : Row) : String × String × String := (r.user_id, r.last_post, r.last_reaction)

/-! ## Concrete fixtures used by witnesses and counterexamples -/

/-- A newest-first stream where user 7 posts at time 20 and again at the
    older time 10. -/
def c1Msgs : List Msg := [⟨some 7, 20, []⟩, ⟨some 7, 10, []⟩]

/-- A one-message stream. -/
def c2OneMsg : List Msg := [⟨some 1, 10, []⟩]

/-- A six-message stream where participants 1 and 2 obtain their post and
    reaction signals within the first three messages. -/
def c2Demo : List Msg :=
  [⟨some 1, 50, []⟩,
   ⟨some 2, 49, [⟨some 1, some "e", some 48⟩]⟩,
   ⟨some 1, 47, [⟨some 2, some "f", some 46⟩]⟩,
   ⟨some 1, 45, []⟩,
   ⟨some 2, 44, []⟩,
   ⟨some 2, 43, []⟩]

/-- A participant with the given id and no optional data. -/
def plainUser (i : Int) : PUser := ⟨i, none, none, none, false, none⟩

/-- A message stream for the fallback collector: senders 3, 3, 4, none, 5. -/
def c4FbMsgs : List Msg :=
  [⟨some 3, 9, []⟩, ⟨some 3, 8, []⟩, ⟨some 4, 7, []⟩, ⟨none, 6, []⟩, ⟨some 5, 5, []⟩]

/-- A resolved entity titled grp. -/
def demoEntity : Entity := ⟨9, some "grp", none, none⟩

/-- A resolver whose direct target lookup succeeds. -/
def okResolver : ResolverEnv :=
  ⟨Except.ok InviteResp.otherShape, Except.ok InviteResp.otherShape,
   Except.ok demoEntity, Except.ok demoEntity⟩

/-- Environment of a run whose recent-filtered stream yields user 5 and then
    fails with an RPCError, and whose bot stream fails before yielding. -/
def c7Env : ExportEnv :=
  ⟨Except.ok (), okResolver, ⟨[], some EnumErr.rpcError⟩,
   ⟨[plainUser 5], some EnumErr.rpcError⟩, Except.ok [plainUser 5], [],
   plainUser, Except.ok [], Except.ok ()⟩

/-- Environment of a run whose client.start fails with invalid credentials. -/
def c6Env : ExportEnv :=
  ⟨Except.error ExpErr.invalidCredentials, okResolver, ⟨[], none⟩, ⟨[], none⟩,
   Except.ok [], [], plainUser, Except.ok [], Except.ok ()⟩

/-- A benign environment for the pre-session validation claims. -/
def c10Env : ExportEnv :=
  ⟨Except.ok (), okResolver, ⟨[], none⟩, ⟨[], none⟩,
   Except.ok [], [], plainUser, Except.ok [], Except.ok ()⟩

/-- A chat reference carrying an invite token. -/
def c3InviteChat : NormalizedChat := ⟨"+AbCdEf12", Target.s "+AbCdEf12", some "AbCdEf12"⟩

/-- A directory whose first invite check raises the already-participant race
    error and whose retry would report already-participant. -/
def c3RaceEnv : ResolverEnv :=
  ⟨Except.error ExpErr.userAlreadyParticipant, Except.ok InviteResp.already,
   Except.ok demoEntity, Except.ok demoEntity⟩

/-! ## Lemmas: association-list lookups -/

theorem lookupKey_append_of_some {v : Type} {u : Int} {l1 : List (Int × v)} {d : v}
    (l2 : List (Int × v)) (h : lookupKey u l1 = some d) :
    lookupKey u (l1 ++ l2) = some d := by
  induction l1 with
  | nil => simp [lookupKey] at h
  | cons p t ih =>
    rw [List.cons_append]
    rw [lookupKey] at h ⊢
    by_cases hp : p.1 = u
    · simpa [hp] using h
    · simp only [hp, if_false] at h ⊢
      exact ih h

theorem lookupKey_append_of_none {v : Type} {u : Int} {l1 : List (Int × v)}
    (l2 : List (Int × v)) (h : lookupKey u l1 = none) :
    lookupKey u (l1 ++ l2) = lookupKey u l2 := by
  induction l1 with
  | nil => simp
  | cons p t ih =>
    rw [List.cons_append]
    rw [lookupKey] at h ⊢
    by_cases hp : p.1 = u
    · simp [hp] at h
    · simp only [hp, if_false] at h ⊢
      exact ih h

theorem lookupKey_eq_none_iff {v : Type} {u : Int} {l : List (Int × v)} :
    lookupKey u l = none ↔ u ∉ l.map Prod.fst := by
  induction l with
  | nil => simp [lookupKey]
  | cons p t ih =>
    rw [lookupKey]
    by_cases hp : p.1 = u
    · simp [hp]
    · simp [hp, ih, Ne.symm hp]


/-! ## Lemmas: the activity scan loop -/

theorem updatePost_lookup_of_some {pids : Finset Int} {m : Msg} {lp : List (Int × Nat)}
    {u : Int} {d : Nat} (h : lookupKey u lp = some d) :
    lookupKey u (updatePost pids m lp) = some d := by
  cases hs : m.sender_id with
  | none => simp only [updatePost, hs]; exact h
  | some w =>
    simp only [updatePost, hs]
    by_cases hc : w ∈ pids ∧ lookupKey w lp = none
    · rw [if_pos hc]; exact lookupKey_append_of_some _ h
    · rw [if_neg hc]; exact h

theorem updatePost_lookup_self {pids : Finset Int} {m : Msg} {lp : List (Int × Nat)}
    {u : Int} (hu : u ∈ pids) (h : lookupKey u lp = none) (hm : m.sender_id = some u) :
    lookupKey u (updatePost pids m lp) = some m.date := by
  simp only [updatePost, hm]
  rw [if_pos ⟨hu, h⟩, lookupKey_append_of_none _ h]
  simp [lookupKey]

theorem updatePost_lookup_other {pids : Finset Int} {m : Msg} {lp : List (Int × Nat)}
    {u : Int} (hm : m.sender_id ≠ some u) :
    lookupKey u (updatePost pids m lp) = lookupKey u lp := by
  cases hs : m.sender_id with
  | none => simp only [updatePost, hs]
  | some w =>
    have hw : w ≠ u := fun he => hm (by rw [hs, he])
    simp only [updatePost, hs]
    by_cases hc : w ∈ pids ∧ lookupKey w lp = none
    · rw [if_pos hc]
      cases hl : lookupKey u lp with
      | some d => rw [lookupKey_append_of_some _ hl]
      | none => rw [lookupKey_append_of_none _ hl]; simp [lookupKey, hw]
    · rw [if_neg hc]

theorem scanLoop_cons_pos {pids : Finset Int} {m : Msg} {rest : List Msg} {st : ScanState}
    (hb : scanDone pids (scanStep pids st m) = true) :
    scanLoop pids (m :: rest) st = (scanStep pids st m, 1) := by
  rw [scanLoop]
  simp [hb]

theorem scanLoop_cons_neg {pids : Finset Int} {m : Msg} {rest : List Msg} {st : ScanState}
    (hb : ¬ scanDone pids (scanStep pids st m) = true) :
    scanLoop pids (m :: rest) st =
      ((scanLoop pids rest (scanStep pids st m)).1,
       (scanLoop pids rest (scanStep pids st m)).2 + 1) := by
  rw [scanLoop]
  simp [hb]

theorem scanLoop_lookup_of_some {pids : Finset Int} {u : Int} {d : Nat} :
    ∀ (msgs : List Msg) (st : ScanState), lookupKey u st.lastPost = some d →
      lookupKey u (scanLoop pids msgs st).1.lastPost = some d := by
  intro msgs
  induction msgs with
  | nil => intro st h; exact h
  | cons m rest ih =>
    intro st h
    have hst' : lookupKey u (scanStep pids st m).lastPost = some d :=
      updatePost_lookup_of_some h
    by_cases hb : scanDone pids (scanStep pids st m) = true
    · rw [scanLoop_cons_pos hb]; exact hst'
    · rw [scanLoop_cons_neg hb]; exact ih _ hst'

theorem scanLoop_lookup_of_none {pids : Finset Int} {u : Int} (hu : u ∈ pids) :
    ∀ (msgs : List Msg) (st : ScanState), lookupKey u st.lastPost = none →
      lookupKey u (scanLoop pids msgs st).1.lastPost =
        ((msgs.take (scanLoop pids msgs st).2).find?
          (fun x => x.sender_id == some u)).map Msg.date := by
  intro msgs
  induction msgs with
  | nil => intro st h; simpa [scanLoop] using h
  | cons m rest ih =>
    intro st h
    by_cases hm : m.sender_id = some u
    · have hst' : lookupKey u (scanStep pids st m).lastPost = some m.date :=
        updatePost_lookup_self hu h hm
      by_cases hb : scanDone pids (scanStep pids st m) = true
      · rw [scanLoop_cons_pos hb]
        simpa [List.find?_cons, hm] using hst'
      · rw [scanLoop_cons_neg hb]
        simpa [List.find?_cons, hm] using scanLoop_lookup_of_some _ _ hst'
    · have hst' : lookupKey u (scanStep pids st m).lastPost = none := by
        rw [show (scanStep pids st m).lastPost = updatePost pids m st.lastPost from rfl,
            updatePost_lookup_other hm, h]
      by_cases hb : scanDone pids (scanStep pids st m) = true
      · rw [scanLoop_cons_pos hb]
        simpa [List.find?_cons, hm] using hst'
      · rw [scanLoop_cons_neg hb]
        simpa [List.find?_cons, hm] using ih _ hst'

theorem scanLoop_count_le {pids : Finset Int} :
    ∀ (msgs : List Msg) (st : ScanState), (scanLoop pids msgs st).2 ≤ msgs.length := by
  intro msgs
  induction msgs with
  | nil => intro st; simp [scanLoop]
  | cons m rest ih =>
    intro st
    by_cases hb : scanDone pids (scanStep pids st m) = true
    · rw [scanLoop_cons_pos hb]; simp
    · rw [scanLoop_cons_neg hb]
      simpa using Nat.succ_le_succ (ih (scanStep pids st m))

theorem scanLoop_break_done {pids : Finset Int} :
    ∀ (msgs : List Msg) (st : ScanState), (scanLoop pids msgs st).2 < msgs.length →
      scanDone pids (scanLoop pids msgs st).1 = true := by
  intro msgs
  induction msgs with
  | nil => intro st h; simp [scanLoop] at h
  | cons m rest ih =>
    intro st h
    by_cases hb : scanDone pids (scanStep pids st m) = true
    · rw [scanLoop_cons_pos hb]; exact hb
    · rw [scanLoop_cons_neg hb] at h ⊢
      exact ih _ (by simpa using Nat.lt_of_succ_lt_succ (by simpa using h))

theorem updatePost_keys {pids : Finset Int} {m : Msg} {lp : List (Int × Nat)}
    (hnd : (lp.map Prod.fst).Nodup) (hsub : ∀ x ∈ lp.map Prod.fst, x ∈ pids) :
    ((updatePost pids m lp).map Prod.fst).Nodup ∧
      (∀ x ∈ (updatePost pids m lp).map Prod.fst, x ∈ pids) := by
  cases hs : m.sender_id with
  | none => simp only [updatePost, hs]; exact ⟨hnd, hsub⟩
  | some w =>
    simp only [updatePost, hs]
    by_cases hc : w ∈ pids ∧ lookupKey w lp = none
    · rw [if_pos hc]
      have hwnot : w ∉ lp.map Prod.fst := lookupKey_eq_none_iff.mp hc.2
      constructor
      · rw [List.map_append]
        rw [List.nodup_append]
        refine ⟨hnd, by simp, ?_⟩
        intro a ha hmem
        simp at hmem
        exact hwnot (hmem ▸ ha)
      · intro x hx
        rw [List.map_append] at hx
        rcases List.mem_append.mp hx with h1 | h2
        · exact hsub x h1
        · simp at h2
          exact h2 ▸ hc.1
    · rw [if_neg hc]; exact ⟨hnd, hsub⟩

theorem scanLoop_keys {pids : Finset Int} :
    ∀ (msgs : List Msg) (st : ScanState), (st.lastPost.map Prod.fst).Nodup →
      (∀ x ∈ st.lastPost.map Prod.fst, x ∈ pids) →
      (((scanLoop pids msgs st).1.lastPost.map Prod.fst).Nodup ∧
        ∀ x ∈ (scanLoop pids msgs st).1.lastPost.map Prod.fst, x ∈ pids) := by
  intro msgs
  induction msgs with
  | nil => intro st hnd hsub; exact ⟨hnd, hsub⟩
  | cons m rest ih =>
    intro st hnd hsub
    have hstep := @updatePost_keys pids m st.lastPost hnd hsub
    by_cases hb : scanDone pids (scanStep pids st m) = true
    · rw [scanLoop_cons_pos hb]; exact hstep
    · rw [scanLoop_cons_neg hb]; exact ih _ hstep.1 hstep.2

theorem scanDone_post_mem {pids : Finset Int} {st : ScanState}
    (hd : scanDone pids st = true) (hnd : (st.lastPost.map Prod.fst).Nodup)
    (hsub : ∀ x ∈ st.lastPost.map Prod.fst, x ∈ pids) :
    ∀ u ∈ pids, u ∈ st.lastPost.map Prod.fst := by
  have hlen : st.lastPost.length = pids.card := by
    simp [scanDone] at hd
    exact hd.1
  have hfs : (st.lastPost.map Prod.fst).toFinset = pids := by
    apply Finset.eq_of_subset_of_card_le
    · intro x hx
      exact hsub x (List.mem_toFinset.mp hx)
    · rw [List.toFinset_card_of_nodup hnd]
      simp [hlen]
  intro u hu
  exact List.mem_toFinset.mp (hfs ▸ hu)

theorem find?_take_of_some {α : Type} {p : α → Bool} :
    ∀ (l : List α) (n : Nat) (x : α), (l.take n).find? p = some x → l.find? p = some x := by
  intro l
  induction l with
  | nil => intro n x h; simp at h
  | cons a t ih =>
    intro n x h
    cases n with
    | zero => simp at h
    | succ k =>
      rw [List.take_succ_cons] at h
      rw [List.find?_cons] at h ⊢
      cases hp : p a with
      | true => simpa [hp] using h
      | false =>
        simp only [hp, if_false] at h ⊢
        exact ih k x h

/-- C1: scanning newest-first, the recorded last post of a participant is the
    timestamp of the first scanned message that participant sent. -/
theorem activity_lastPost_first_seen_wins (pids : Finset Int) (limit : Nat)
    (msgs : List Msg) (u : Int) (hu : u ∈ pids) :
    lookupKey u (collectActivityMaps pids limit msgs).1.lastPost
      = ((msgs.take limit).find? (fun x => x.sender_id == some u)).map Msg.date := by
  have h0 : lookupKey u (ScanState.mk [] []).lastPost = none := rfl
  have hB := scanLoop_lookup_of_none hu (msgs.take limit) ⟨[], []⟩ h0
  rw [show collectActivityMaps pids limit msgs
        = scanLoop pids (msgs.take limit) ⟨[], []⟩ from rfl]
  rw [hB]
  rcases Nat.lt_or_ge (scanLoop pids (msgs.take limit) ⟨[], []⟩).2
      (msgs.take limit).length with hlt | hge
  · have hdone := @scanLoop_break_done pids (msgs.take limit) ⟨[], []⟩ hlt
    have hkeys := @scanLoop_keys pids (msgs.take limit) ⟨[], []⟩ (by simp) (by simp)
    have hmem := scanDone_post_mem hdone hkeys.1 hkeys.2 u hu
    have hlook : lookupKey u (scanLoop pids (msgs.take limit) ⟨[], []⟩).1.lastPost ≠ none := by
      rw [Ne, lookupKey_eq_none_iff]
      simpa using hmem
    cases hf : ((msgs.take limit).take
        (scanLoop pids (msgs.take limit) ⟨[], []⟩).2).find? (fun x => x.sender_id == some u) with
    | none => rw [hB, hf] at hlook; simp at hlook
    | some x =>
      rw [find?_take_of_some (List.take limit msgs) _ _ hf]
  · rw [List.take_of_length_le hge]

/-- C1 witness: with participant 7 and the stream where 7 posts at 20 and
    then at the older 10, the recorded last post is 20. -/
theorem activity_lastPost_first_seen_wins_witness :
    (7 : Int) ∈ ({7} : Finset Int) ∧
      lookupKey 7 (collectActivityMaps {7} 5 c1Msgs).1.lastPost = some 20 := by
  refine ⟨by decide, ?_⟩
  rw [activity_lastPost_first_seen_wins {7} 5 c1Msgs 7 (by decide)]
  decide

theorem scanLoop_fst_eq_fold {pids : Finset Int} :
    ∀ (msgs : List Msg) (st : ScanState),
      (scanLoop pids msgs st).1 = scanFold pids (msgs.take (scanLoop pids msgs st).2) st := by
  intro msgs
  induction msgs with
  | nil => intro st; simp [scanLoop, scanFold]
  | cons m rest ih =>
    intro st
    by_cases hb : scanDone pids (scanStep pids st m) = true
    · rw [scanLoop_cons_pos hb]
      simp [scanFold]
    · rw [scanLoop_cons_neg hb]
      rw [List.take_succ_cons]
      rw [show scanFold pids (m :: List.take (scanLoop pids rest (scanStep pids st m)).2 rest) st
            = scanFold pids (List.take (scanLoop pids rest (scanStep pids st m)).2 rest)
                (scanStep pids st m) from rfl]
      exact ih _

theorem scanLoop_not_done_before {pids : Finset Int} :
    ∀ (msgs : List Msg) (st : ScanState) (j : Nat), 0 < j → j < (scanLoop pids msgs st).2 →
      scanDone pids (scanFold pids (msgs.take j) st) = false := by
  intro msgs
  induction msgs with
  | nil =>
    intro st j hj hjk
    simp [scanLoop] at hjk
  | cons m rest ih =>
    intro st j hj hjk
    by_cases hb : scanDone pids (scanStep pids st m) = true
    · rw [scanLoop_cons_pos hb] at hjk
      omega
    · rw [scanLoop_cons_neg hb] at hjk
      match j, hj with
      | jj + 1, _ =>
        rw [List.take_succ_cons]
        rw [show scanFold pids (m :: List.take jj rest) st
              = scanFold pids (List.take jj rest) (scanStep pids st m) from rfl]
        rcases Nat.eq_zero_or_pos jj with h0 | hpos
        · subst h0
          simpa [scanFold] using Bool.not_eq_true _ |>.mp hb
        · exact ih _ jj hpos (by omega)

/-- C2 counterexample: with an empty participant set and a one-message
    stream, the scan processes one message, not zero, because the
    completeness check only runs after a message has been handled. -/
theorem activity_scan_empty_set_scans_one :
    (collectActivityMaps (∅ : Finset Int) 5 c2OneMsg).2 = 1 ∧
      (collectActivityMaps (∅ : Finset Int) 5 c2OneMsg).2 ≠ 0 := by decide

/-- C2 amended: the scan never exceeds min(historyLimit, stream length); it
    stops at the first message count at which every participant has both
    signals (the completeness check runs only after each processed message);
    when it stops early the maps are complete; with historyLimit 5 and two
    participants complete within the first three messages exactly three are
    scanned; with an empty participant set one message is scanned. -/
theorem activity_scan_early_termination_amended :
    (∀ (pids : Finset Int) (limit : Nat) (msgs : List Msg),
        (collectActivityMaps pids limit msgs).2 ≤ min limit msgs.length) ∧
    (∀ (pids : Finset Int) (limit : Nat) (msgs : List Msg) (j : Nat),
        0 < j → j < (collectActivityMaps pids limit msgs).2 →
        scanDone pids (scanFold pids ((msgs.take limit).take j) ⟨[], []⟩) = false) ∧
    (∀ (pids : Finset Int) (limit : Nat) (msgs : List Msg),
        (collectActivityMaps pids limit msgs).2 < (msgs.take limit).length →
        scanDone pids (collectActivityMaps pids limit msgs).1 = true) ∧
    (collectActivityMaps ({1, 2} : Finset Int) 5 c2Demo).2 = 3 ∧
    (collectActivityMaps (∅ : Finset Int) 5 c2OneMsg).2 = 1 := by
  refine ⟨?_, ?_, ?_, by decide, by decide⟩
  · intro pids limit msgs
    have h := @scanLoop_count_le pids (msgs.take limit) ⟨[], []⟩
    simpa [collectActivityMaps, List.length_take] using h
  · intro pids limit msgs j hj hjk
    exact scanLoop_not_done_before _ _ j hj hjk
  · intro pids limit msgs h
    exact scanLoop_break_done _ _ h

/-- C2 witness: on the two-participant stream the maps are incomplete after
    two messages, and the early-stopped scan has complete maps. -/
theorem activity_scan_early_termination_amended_witness :
    scanDone ({1, 2} : Finset Int)
        (scanFold ({1, 2} : Finset Int) ((c2Demo.take 5).take 2) ⟨[], []⟩) = false ∧
      scanDone ({1, 2} : Finset Int)
        (collectActivityMaps ({1, 2} : Finset Int) 5 c2Demo).1 = true := by
  constructor
  · exact activity_scan_early_termination_amended.2.1 {1, 2} 5 c2Demo 2 (by decide) (by decide)
  · exact activity_scan_early_termination_amended.2.2.1 {1, 2} 5 c2Demo (by decide)

/-- C3: the first invite check fails with the already-participant race error;
    the code surfaces NameError (the handler names the never-imported
    UserAlreadyParticipantError) instead of retrying, although the retry slot
    would have answered already-participant. -/
theorem resolve_invite_retry_name_error :
    resolveChatEntity c3RaceEnv c3InviteChat = Except.error ExpErr.nameErrorUAP ∧
      c3RaceEnv.inviteCheck2 = Except.ok InviteResp.already := ⟨rfl, rfl⟩

/-- C6: when client.start fails (invalid credentials) the run aborts with the
    session opened and never disconnected, because start runs before the
    try/finally block. -/
theorem export_session_not_released_on_login_failure :
    (exportMemberData "member" (ChatInput.ofStr "grp") 10 "o.csv" c6Env).1
        = Except.error ExpErr.invalidCredentials ∧
      (exportMemberData "member" (ChatInput.ofStr "grp") 10 "o.csv" c6Env).2
        = ⟨true, true, false⟩ := ⟨rfl, rfl⟩

/-- C10: an unsupported mode, and a chat reference that fails to normalize,
    both raise ValueError before the client is constructed or started. -/
theorem export_validates_before_session :
    (∀ (mode : String) (chat : ChatInput) (limit : Nat) (path : String) (env : ExportEnv),
        mode ≠ "member" → mode ≠ "admin" →
        exportMemberData mode chat limit path env
          = (Except.error ExpErr.badMode, ⟨false, false, false⟩)) ∧
    (∀ (mode : String) (chat : ChatInput) (limit : Nat) (path : String) (env : ExportEnv),
        (mode = "member" ∨ mode = "admin") →
        normalize_chat_identifier chat = none →
        exportMemberData mode chat limit path env
          = (Except.error ExpErr.badChat, ⟨false, false, false⟩)) := by
  constructor
  · intro mode chat limit path env h1 h2
    unfold exportMemberData
    rw [if_pos ⟨h1, h2⟩]
  · intro mode chat limit path env hm hn
    have hcond : ¬ (mode ≠ "member" ∧ mode ≠ "admin") := by
      rcases hm with h | h <;> simp [h]
    unfold exportMemberData
    rw [if_neg hcond, hn]

/-- C10 witness: a bogus mode and a non-string non-integer chat value are
    rejected with the construction flag still false. -/
theorem export_validates_before_session_witness :
    exportMemberData "bogus" (ChatInput.ofStr "grp") 1 "o" c10Env
        = (Except.error ExpErr.badMode, ⟨false, false, false⟩) ∧
      exportMemberData "member" ChatInput.otherType 1 "o" c10Env
        = (Except.error ExpErr.badChat, ⟨false, false, false⟩) := by
  constructor
  · exact export_validates_before_session.1 "bogus" _ 1 "o" c10Env (by decide) (by decide)
  · exact export_validates_before_session.2 "member" ChatInput.otherType 1 "o" c10Env
      (Or.inl rfl) rfl

/-- C4 counterexample: a participant stream yielding the same user twice
    produces two rows with the same userId. -/
theorem export_rows_dup_user_cex :
    (buildRows false [plainUser 1, plainUser 1] ∅ [] []).length = 2 ∧
      ¬ ((buildRows false [plainUser 1, plainUser 1] ∅ [] []).map Row.user_id).Nodup := by
  decide

theorem fallbackLoop_ids_nodup {lookup : Int → PUser} (hlk : ∀ i, (lookup i).id = i)
    {limit : Nat} :
    ∀ (msgs : List Msg) (acc : List PUser) (seen : Finset Int),
      (acc.map PUser.id).Nodup → (∀ x ∈ acc.map PUser.id, x ∈ seen) →
      ((fallbackLoop lookup limit msgs acc seen).map PUser.id).Nodup := by
  intro msgs
  induction msgs with
  | nil => intro acc seen hnd hsub; exact hnd
  | cons m rest ih =>
    intro acc seen hnd hsub
    cases hs : m.sender_id with
    | none => simp only [fallbackLoop, hs]; exact ih acc seen hnd hsub
    | some sid =>
      simp only [fallbackLoop, hs]
      by_cases hc : sid ≠ 0 ∧ sid ∉ seen
      · rw [if_pos hc]
        have hsidnot : sid ∉ acc.map PUser.id := fun hmem => hc.2 (hsub sid hmem)
        have hnd' : ((acc ++ [lookup sid]).map PUser.id).Nodup := by
          rw [List.map_append, List.nodup_append]
          refine ⟨hnd, by simp, ?_⟩
          intro a ha hmem
          simp [hlk] at hmem
          exact hsidnot (hmem ▸ ha)
        have hsub' : ∀ x ∈ (acc ++ [lookup sid]).map PUser.id, x ∈ insert sid seen := by
          intro x hx
          rw [List.map_append] at hx
          rcases List.mem_append.mp hx with h1 | h2
          · exact Finset.mem_insert_of_mem (hsub x h1)
          · simp [hlk] at h2
            exact h2 ▸ Finset.mem_insert_self sid seen
        by_cases hl : limit ≤ (acc ++ [lookup sid]).length
        · rw [if_pos hl]; exact hnd'
        · rw [if_neg hl]; exact ih _ _ hnd' hsub'
      · rw [if_neg hc]; exact ih acc seen hnd hsub

/-- C4 amended: the row set always has exactly one row per entry of the
    enumerated participant list, with row userIds equal in order to the
    participant ids; userId uniqueness therefore holds exactly when the
    enumerator yields distinct users, which the primary stream does not
    enforce but the message-scan fallback does. -/
theorem export_rows_count_and_ids_amended :
    (∀ (a : Bool) (ps : List PUser) (rids : Finset Int) (lp : List (Int × Nat))
        (lr : List (Int × (Option String × Option Nat))),
        (buildRows a ps rids lp lr).length = ps.length) ∧
    (∀ (a : Bool) (ps : List PUser) (rids : Finset Int) (lp : List (Int × Nat))
        (lr : List (Int × (Option String × Option Nat))),
        (buildRows a ps rids lp lr).map Row.user_id = ps.map (fun u => toString u.id)) ∧
    (∀ (lookup : Int → PUser) (limit : Nat) (msgs : List Msg),
        (∀ i, (lookup i).id = i) →
        ((fallbackParticipants lookup limit msgs).map PUser.id).Nodup) := by
  refine ⟨?_, ?_, ?_⟩
  · intro a ps rids lp lr
    simp [buildRows]
  · intro a ps rids lp lr
    rw [buildRows, List.map_map]
    exact congrArg (fun f => List.map f ps) (funext fun u => rfl)
  · intro lookup limit msgs hlk
    exact fallbackLoop_ids_nodup hlk _ [] ∅ (by simp) (by simp)

/-- C4 witness: the fallback collector on a stream with a repeated sender
    produces rows whose ids are pairwise distinct. -/
theorem export_rows_count_and_ids_amended_witness :
    (∀ i : Int, (plainUser i).id = i) ∧
      ((fallbackParticipants plainUser 5 c4FbMsgs).map PUser.id).Nodup := by
  refine ⟨fun i => rfl, ?_⟩
  exact export_rows_count_and_ids_amended.2.2 plainUser 5 c4FbMsgs (fun i => rfl)

/-- C7 counterexample: the recent stream yields user 5 and then fails; the
    run completes but the summary records recentCount 1, not 0, because the
    except branch does not clear the partially filled set. -/
theorem bots_recent_degrade_partial_recent_cex :
    summaryOf (exportMemberData "member" (ChatInput.ofStr "grp") 10 "o.csv" c7Env).1
        = some ⟨1, 0, 1, "o.csv", "grp"⟩ ∧
      (summaryOf (exportMemberData "member" (ChatInput.ofStr "grp") 10 "o.csv" c7Env).1).map
          ExportSummary.recent_count ≠ some 0 := by
  constructor
  · rfl
  · decide

theorem map_rowCore_buildRows (a : Bool) (ps : List PUser) (r1 r2 : Finset Int)
    (lp : List (Int × Nat)) (lr : List (Int × (Option String × Option Nat))) :
    List.map rowCore (buildRows a ps r1 lp lr) = List.map rowCore (buildRows a ps r2 lp lr) := by
  induction ps with
  | nil => rfl
  | cons u t ih =>
    calc List.map rowCore (buildRows a (u :: t) r1 lp lr)
        = rowCore (rowOf a r1 lp lr u) :: List.map rowCore (buildRows a t r1 lp lr) := rfl
      _ = rowCore (rowOf a r2 lp lr u) :: List.map rowCore (buildRows a t r2 lp lr) := by
          rw [show rowCore (rowOf a r1 lp lr u) = rowCore (rowOf a r2 lp lr u) from rfl, ih]
      _ = List.map rowCore (buildRows a (u :: t) r2 lp lr) := rfl

theorem exportFinally_fst (body : Except ExpErr (ExportSummary × List Row)) :
    (exportFinally body).1 = body := by
  cases body <;> rfl

theorem exportBody_streams (mode : String) (nc : NormalizedChat) (limit : Nat)
    (path : String) (env : ExportEnv) (bs1 rs1 bs2 rs2 : StreamRes) :
    ((summaryOf (exportBody mode nc limit path (setStreams env bs1 rs1))).isSome ↔
        (summaryOf (exportBody mode nc limit path (setStreams env bs2 rs2))).isSome) ∧
      (summaryOf (exportBody mode nc limit path (setStreams env bs1 rs1))).map
          ExportSummary.total_members =
        (summaryOf (exportBody mode nc limit path (setStreams env bs2 rs2))).map
          ExportSummary.total_members ∧
      (rowsOf (exportBody mode nc limit path (setStreams env bs1 rs1))).map
          (List.map rowCore) =
        (rowsOf (exportBody mode nc limit path (setStreams env bs2 rs2))).map
          (List.map rowCore) := by
  simp only [exportBody, setStreams]
  cases hr : resolveChatEntity env.resolver nc with
  | error e => exact ⟨Iff.rfl, rfl, rfl⟩
  | ok entity =>
    cases hmp : env.mainParticipants with
    | error e => exact ⟨Iff.rfl, rfl, rfl⟩
    | ok ps0 =>
      cases hsm : env.scanMsgs with
      | error e => exact ⟨Iff.rfl, rfl, rfl⟩
      | ok msgs =>
        cases hw : env.writeResult with
        | error e => exact ⟨Iff.rfl, rfl, rfl⟩
        | ok _ =>
          refine ⟨Iff.rfl, rfl, ?_⟩
          simp only [rowsOf, Option.map_some]
          exact congrArg some (map_rowCore_buildRows _ _ _ _ _ _)

/-- C7 amended: a failing bot stream degrades the bot count to zero; a
    failing recent stream keeps exactly the ids yielded before the failure
    (so the set is empty precisely when the failure precedes the first
    yield); no other part of the run reads the two filtered streams, so the
    run completes and the main participant list, activity maps and the
    stream-independent row fields are unaffected. -/
theorem bots_recent_degrade_amended :
    (∀ bs rs : StreamRes, bs.failAfter.isSome → (collectBotsAndRecent bs rs).1 = 0) ∧
    (∀ (bs : StreamRes) (ys : List PUser) (e1 e2 : Option EnumErr),
        (collectBotsAndRecent bs ⟨ys, e1⟩).2 = (collectBotsAndRecent bs ⟨ys, e2⟩).2) ∧
    (∀ (bs : StreamRes) (e : EnumErr), (collectBotsAndRecent bs ⟨[], some e⟩).2 = ∅) ∧
    (∀ (mode : String) (chat : ChatInput) (limit : Nat) (path : String) (env : ExportEnv)
        (bs1 rs1 bs2 rs2 : StreamRes),
        ((summaryOf (exportMemberData mode chat limit path (setStreams env bs1 rs1)).1).isSome ↔
          (summaryOf (exportMemberData mode chat limit path (setStreams env bs2 rs2)).1).isSome) ∧
        (summaryOf (exportMemberData mode chat limit path (setStreams env bs1 rs1)).1).map
            ExportSummary.total_members =
          (summaryOf (exportMemberData mode chat limit path (setStreams env bs2 rs2)).1).map
            ExportSummary.total_members ∧
        (rowsOf (exportMemberData mode chat limit path (setStreams env bs1 rs1)).1).map
            (List.map rowCore) =
          (rowsOf (exportMemberData mode chat limit path (setStreams env bs2 rs2)).1).map
            (List.map rowCore)) := by
  refine ⟨?_, ?_, ?_, ?_⟩
  · intro bs rs h
    cases hf : bs.failAfter with
    | none => rw [hf] at h; simp at h
    | some e => simp [collectBotsAndRecent, hf]
  · intro bs ys e1 e2
    rfl
  · intro bs e
    rfl
  · intro mode chat limit path env bs1 rs1 bs2 rs2
    by_cases hmode : mode ≠ "member" ∧ mode ≠ "admin"
    · have h1 : exportMemberData mode chat limit path (setStreams env bs1 rs1)
          = (Except.error ExpErr.badMode, ⟨false, false, false⟩) := by
        unfold exportMemberData; rw [if_pos hmode]
      have h2 : exportMemberData mode chat limit path (setStreams env bs2 rs2)
          = (Except.error ExpErr.badMode, ⟨false, false, false⟩) := by
        unfold exportMemberData; rw [if_pos hmode]
      rw [h1, h2]
      exact ⟨Iff.rfl, rfl, rfl⟩
    · cases hn : normalize_chat_identifier chat with
      | none =>
        have h1 : exportMemberData mode chat limit path (setStreams env bs1 rs1)
            = (Except.error ExpErr.badChat, ⟨false, false, false⟩) := by
          unfold exportMemberData; rw [if_neg hmode, hn]
        have h2 : exportMemberData mode chat limit path (setStreams env bs2 rs2)
            = (Except.error ExpErr.badChat, ⟨false, false, false⟩) := by
          unfold exportMemberData; rw [if_neg hmode, hn]
        rw [h1, h2]
        exact ⟨Iff.rfl, rfl, rfl⟩
      | some nc =>
        cases hst : env.startResult with
        | error e =>
          have hs1e : (setStreams env bs1 rs1).startResult = Except.error e := by
            rw [show (setStreams env bs1 rs1).startResult = env.startResult from rfl, hst]
          have hs2e : (setStreams env bs2 rs2).startResult = Except.error e := by
            rw [show (setStreams env bs2 rs2).startResult = env.startResult from rfl, hst]
          have h1 : exportMemberData mode chat limit path (setStreams env bs1 rs1)
              = (Except.error e, ⟨true, true, false⟩) := by
            unfold exportMemberData; rw [if_neg hmode, hn, hs1e]
          have h2 : exportMemberData mode chat limit path (setStreams env bs2 rs2)
              = (Except.error e, ⟨true, true, false⟩) := by
            unfold exportMemberData; rw [if_neg hmode, hn, hs2e]
          rw [h1, h2]
          exact ⟨Iff.rfl, rfl, rfl⟩
        | ok uu =>
          have hs1e : (setStreams env bs1 rs1).startResult = Except.ok uu := by
            rw [show (setStreams env bs1 rs1).startResult = env.startResult from rfl, hst]
          have hs2e : (setStreams env bs2 rs2).startResult = Except.ok uu := by
            rw [show (setStreams env bs2 rs2).startResult = env.startResult from rfl, hst]
          have h1 : exportMemberData mode chat limit path (setStreams env bs1 rs1)
              = exportFinally (exportBody mode nc limit path (setStreams env bs1 rs1)) := by
            unfold exportMemberData; rw [if_neg hmode, hn, hs1e]
          have h2 : exportMemberData mode chat limit path (setStreams env bs2 rs2)
              = exportFinally (exportBody mode nc limit path (setStreams env bs2 rs2)) := by
            unfold exportMemberData; rw [if_neg hmode, hn, hs2e]
          rw [h1, h2, exportFinally_fst, exportFinally_fst]
          exact exportBody_streams mode nc limit path env bs1 rs1 bs2 rs2

/-- C7 witness: a bot stream failing before any yield has bot count zero, and
    a recent stream failing before any yield leaves the set empty. -/
theorem bots_recent_degrade_amended_witness :
    (collectBotsAndRecent ⟨[], some EnumErr.rpcError⟩ ⟨[], some EnumErr.chatAdminRequired⟩).1
        = 0 ∧
      (collectBotsAndRecent ⟨[plainUser 9], none⟩ ⟨[], some EnumErr.chatAdminRequired⟩).2
        = ∅ := by
  constructor
  · exact bots_recent_degrade_amended.1 ⟨[], some EnumErr.rpcError⟩ _ (by decide)
  · exact bots_recent_degrade_amended.2.2.1 ⟨[plainUser 9], none⟩ EnumErr.chatAdminRequired

/-! ## Lemmas: Python strip and the normalizer -/

theorem dropWhile_idem {α : Type} (p : α → Bool) (l : List α) :
    List.dropWhile p (List.dropWhile p l) = List.dropWhile p l := by
  induction l with
  | nil => rfl
  | cons a t ih =>
    by_cases h : p a = true
    · simp [List.dropWhile_cons, h, ih]
    · simp [List.dropWhile_cons, h]

theorem dropWhile_head_false {α : Type} {p : α → Bool} {l t : List α} {a : α}
    (h : List.dropWhile p l = a :: t) : p a = false := by
  induction l with
  | nil => simp [List.dropWhile] at h
  | cons x xs ih =>
    by_cases hx : p x = true
    · rw [List.dropWhile_cons_of_pos hx] at h
      exact ih h
    · rw [List.dropWhile_cons_of_neg hx] at h
      cases h
      exact Bool.not_eq_true _ |>.mp hx

theorem dropWhile_concat_stop {α : Type} {p : α → Bool} {a : α} (ha : p a = false) :
    ∀ xs : List α, ∃ zs, List.dropWhile p (xs ++ [a]) = zs ++ [a] := by
  intro xs
  induction xs with
  | nil =>
    refine ⟨[], ?_⟩
    simp [List.dropWhile_cons, ha]
  | cons x xs ih =>
    by_cases hx : p x = true
    · obtain ⟨zs, hzs⟩ := ih
      refine ⟨zs, ?_⟩
      simpa [List.dropWhile_cons, hx] using hzs
    · exact ⟨x :: xs, by simp [List.dropWhile_cons, hx]⟩

theorem stripWsList_idem (l : List Char) : stripWsList (stripWsList l) = stripWsList l := by
  cases hD : List.dropWhile pyWsChar l with
  | nil =>
    have h1 : stripWsList l = [] := by simp [stripWsList, hD]
    rw [h1]
    rfl
  | cons a t =>
    have ha : pyWsChar a = false := dropWhile_head_false hD
    obtain ⟨zs, hzs⟩ := dropWhile_concat_stop ha t.reverse
    have h1 : stripWsList l = a :: zs.reverse := by
      calc stripWsList l
          = (List.dropWhile pyWsChar ((a :: t).reverse)).reverse := by
            simp only [stripWsList, hD]
        _ = (List.dropWhile pyWsChar (t.reverse ++ [a])).reverse := by rw [List.reverse_cons]
        _ = (zs ++ [a]).reverse := by rw [hzs]
        _ = a :: zs.reverse := by simp
    have h2 : List.dropWhile pyWsChar (zs ++ [a]) = zs ++ [a] := by
      rw [← hzs]
      exact dropWhile_idem _ _
    rw [h1]
    have h3 : List.dropWhile pyWsChar (a :: zs.reverse) = a :: zs.reverse := by
      simp [List.dropWhile_cons, ha]
    calc stripWsList (a :: zs.reverse)
        = (List.dropWhile pyWsChar ((a :: zs.reverse).reverse)).reverse := by
          simp only [stripWsList, h3]
      _ = (List.dropWhile pyWsChar (zs ++ [a])).reverse := by
          rw [List.reverse_cons, List.reverse_reverse]
      _ = (zs ++ [a]).reverse := by rw [h2]
      _ = a :: zs.reverse := by simp

theorem pyStrip_idem (s : String) : pyStrip (pyStrip s) = pyStrip s := by
  unfold pyStrip
  exact congrArg String.mk (stripWsList_idem s.data)

theorem urlTailBranch_raw (r : String) (first : List Char) :
    (urlTailBranch r first).raw = r := by
  unfold urlTailBranch
  split <;> rfl

theorem urlBranch_raw (r : String) (first : List Char) (rest : List (List Char)) :
    (urlBranch r first rest).raw = r := by
  unfold urlBranch
  split
  · rfl
  · split
    · split
      · rfl
      · exact urlTailBranch_raw _ _
    · exact urlTailBranch_raw _ _

theorem urlTry_raw {r : String} {c : NormalizedChat} (h : urlTry r = some c) :
    c.raw = r := by
  unfold urlTry at h
  split at h
  · split at h
    · split at h
      · exact absurd h (by simp)
      · have hc := Option.some.inj h
        rw [← hc]
        exact urlBranch_raw _ _ _
    · exact absurd h (by simp)
  · exact absurd h (by simp)

theorem normCore_raw (r : String) : (normCore r).raw = r := by
  unfold normCore
  split
  · rfl
  · split
    · rename_i c hc
      exact urlTry_raw hc
    · split <;> rfl

/-- C5 counterexample: for the integer input 123 the descriptor target is the
    integer 123, but re-normalizing its raw string 123 yields the string
    target, so the round trip is not structurally equal. -/
theorem normalize_idempotent_int_cex :
    normalize_chat_identifier (ChatInput.ofInt 123)
        = some ⟨"123", Target.i 123, none⟩ ∧
      normalize_chat_identifier (ChatInput.ofStr "123")
        = some ⟨"123", Target.s "123", none⟩ ∧
      normalize_chat_identifier (ChatInput.ofStr "123")
        ≠ normalize_chat_identifier (ChatInput.ofInt 123) := by
  refine ⟨by decide, by decide, by decide⟩

/-- C5 amended: normalize is idempotent on every string input (re-normalizing
    the raw field of a produced descriptor reproduces the descriptor); for
    integer inputs the round trip holds only when the decimal form matches
    the channel-style pattern, as it does for -1001234567890. -/
theorem normalize_idempotent_amended :
    (∀ (s : String) (d : NormalizedChat),
        normalize_chat_identifier (ChatInput.ofStr s) = some d →
        normalize_chat_identifier (ChatInput.ofStr d.raw) = some d) ∧
      normalize_chat_identifier (ChatInput.ofInt (-1001234567890))
          = some ⟨"-1001234567890", Target.i (-1001234567890), none⟩ ∧
      normalize_chat_identifier (ChatInput.ofStr "-1001234567890")
          = some ⟨"-1001234567890", Target.i (-1001234567890), none⟩ := by
  refine ⟨?_, by decide, by decide⟩
  intro s d h
  simp only [normalize_chat_identifier] at h
  by_cases he : (pyStrip s).data = []
  · rw [if_pos he] at h
    exact absurd h (by simp)
  · rw [if_neg he] at h
    have hd := Option.some.inj h
    have hraw : d.raw = pyStrip s := by
      rw [← hd]
      exact normCore_raw _
    rw [hraw]
    simp only [normalize_chat_identifier]
    rw [pyStrip_idem]
    rw [if_neg he, hd]

/-- C5 witness: idempotence at a whitespace-padded handle input. -/
theorem normalize_idempotent_amended_witness :
    normalize_chat_identifier (ChatInput.ofStr "  somehandle  ")
        = some ⟨"somehandle", Target.s "somehandle", none⟩ ∧
      normalize_chat_identifier (ChatInput.ofStr "somehandle")
        = some ⟨"somehandle", Target.s "somehandle", none⟩ := by
  refine ⟨by decide, ?_⟩
  have h := normalize_idempotent_amended.1 "  somehandle  "
    ⟨"somehandle", Target.s "somehandle", none⟩ (by decide)
  exact h

theorem listLeads_iff_append {p l : List Char} :
    listLeads p l = true ↔ ∃ t, l = p ++ t := by
  induction p generalizing l with
  | nil =>
    simp [listLeads]
  | cons a ps ih =>
    cases l with
    | nil => simp [listLeads]
    | cons b ls =>
      rw [listLeads, Bool.and_eq_true, beq_iff_eq, ih]
      constructor
      · rintro ⟨hab, t, ht⟩
        exact ⟨t, by rw [hab, ht]; rfl⟩
      · rintro ⟨t, ht⟩
        rw [List.cons_append] at ht
        injection ht with h1 h2
        exact ⟨h1.symm, t, h2⟩

theorem digitsVal_of_all {l : List Char} (hne : l ≠ []) (hall : l.all Char.isDigit = true) :
    ∃ v, digitsVal l = some v :=
  ⟨l.foldl (fun a c => a * 10 + (c.toNat - 48)) 0, by simp [digitsVal, hne, hall]⟩

theorem channelPat_parse {l : List Char} (h : channelPat l = true) :
    ∃ n, pyInt? l = some n := by
  simp only [channelPat] at h
  by_cases hm : listLeads ['-'] l = true
  · rw [if_pos hm] at h
    obtain ⟨l1, hl1⟩ := listLeads_iff_append.mp hm
    subst hl1
    simp only [List.cons_append, List.nil_append, List.drop_succ_cons, List.drop_zero] at h
    rw [Bool.and_eq_true, Bool.and_eq_true] at h
    obtain ⟨⟨h100, _⟩, hdig⟩ := h
    obtain ⟨rest, hrest⟩ := listLeads_iff_append.mp h100
    subst hrest
    have hdig' : rest.all Char.isDigit = true := by simpa using hdig
    have hallv : (['1', '0', '0'] ++ rest).all Char.isDigit = true := by simp [hdig']
    obtain ⟨v, hv⟩ := digitsVal_of_all (by simp) hallv
    have hv' : digitsVal ('1' :: '0' :: '0' :: rest) = some v := by simpa using hv
    refine ⟨-(v : Int), ?_⟩
    simp [pyInt?, hv']
  · rw [if_neg hm] at h
    rw [Bool.and_eq_true, Bool.and_eq_true] at h
    obtain ⟨⟨h100, _⟩, hdig⟩ := h
    obtain ⟨rest, hrest⟩ := listLeads_iff_append.mp h100
    subst hrest
    have hdig' : rest.all Char.isDigit = true := by simpa using hdig
    have hallv : (['1', '0', '0'] ++ rest).all Char.isDigit = true := by simp [hdig']
    obtain ⟨v, hv⟩ := digitsVal_of_all (by simp) hallv
    have hv' : digitsVal ('1' :: '0' :: '0' :: rest) = some v := by simpa using hv
    refine ⟨(v : Int), ?_⟩
    simp [pyInt?, hv']

/-- C8 counterexample: the regex makes the minus sign optional, so the bare
    string 10012345 also parses to an integer target, not to the literal
    handle the claim predicts. -/
theorem channel_pattern_positive_parse_cex :
    normalize_chat_identifier (ChatInput.ofStr "10012345")
        = some ⟨"10012345", Target.i 10012345, none⟩ ∧
      Target.i 10012345 ≠ Target.s "10012345" := ⟨by decide, by decide⟩

/-- C8 amended: a bare string parses to an integer target exactly when it
    matches an optional minus sign, then 100, then at least five digits; any
    other non-empty stripped string that does not enter the URL branch and
    does not start with a plus sign becomes a literal handle target. -/
theorem channel_pattern_parse_amended :
    (∀ r : String, channelPat r.data = true →
        ∃ n, pyInt? r.data = some n ∧ normCore r = ⟨r, Target.i n, none⟩) ∧
      (∀ r : String, channelPat r.data = false → urlTry r = none →
        listLeads ['+'] r.data = false → normCore r = ⟨r, Target.s r, none⟩) := by
  constructor
  · intro r h
    obtain ⟨n, hn⟩ := channelPat_parse h
    refine ⟨n, hn, ?_⟩
    unfold normCore
    rw [if_pos h, hn]
  · intro r h hu hp
    unfold normCore
    rw [if_neg (by simp [h]), hu, if_neg (by simp [hp])]

/-- C8 witness: the fully qualified channel string parses to an integer, and
    a plain handle falls through to the literal-handle rule. -/
theorem channel_pattern_parse_amended_witness :
    (∃ n, pyInt? "-1001234567890".data = some n ∧
        normCore "-1001234567890" = ⟨"-1001234567890", Target.i n, none⟩) ∧
      normCore "somehandle" = ⟨"somehandle", Target.s "somehandle", none⟩ := by
  constructor
  · exact channel_pattern_parse_amended.1 "-1001234567890" (by decide)
  · exact channel_pattern_parse_amended.2 "somehandle" (by decide) (by decide) (by decide)

theorem urlSchemeHit_not_channel {r : String} (h : urlSchemeHit r = true) :
    channelPat r.data = false := by
  have hh : ∃ c cs, r.data = c :: cs ∧ Char.toLower c = 'h' := by
    unfold urlSchemeHit at h
    rw [Bool.or_eq_true] at h
    rcases h with h | h
    · obtain ⟨t, ht⟩ := listLeads_iff_append.mp h
      have hlit : "http://".data = ['h', 't', 't', 'p', ':', '/', '/'] := rfl
      rw [hlit] at ht
      simp only [List.cons_append] at ht
      cases hr : r.data with
      | nil => rw [hr] at ht; simp [pyLowerList] at ht
      | cons c cs =>
        rw [hr] at ht
        simp only [pyLowerList, List.map_cons] at ht
        injection ht with h1 _
        exact ⟨c, cs, rfl, h1⟩
    · obtain ⟨t, ht⟩ := listLeads_iff_append.mp h
      have hlit : "https://".data = ['h', 't', 't', 'p', 's', ':', '/', '/'] := rfl
      rw [hlit] at ht
      simp only [List.cons_append] at ht
      cases hr : r.data with
      | nil => rw [hr] at ht; simp [pyLowerList] at ht
      | cons c cs =>
        rw [hr] at ht
        simp only [pyLowerList, List.map_cons] at ht
        injection ht with h1 _
        exact ⟨c, cs, rfl, h1⟩
  obtain ⟨c, cs, hr, hc⟩ := hh
  rw [hr]
  have hcd : c ≠ '-' := by
    intro he
    rw [he] at hc
    exact absurd hc (by decide)
  have hc1 : c ≠ '1' := by
    intro he
    rw [he] at hc
    exact absurd hc (by decide)
  simp only [channelPat]
  have hlm : listLeads ['-'] (c :: cs) = false := by
    have hb : ('-' == c) = false := beq_eq_false_iff_ne.mpr (Ne.symm hcd)
    simp [listLeads, hb]
  rw [if_neg (by simp [hlm])]
  have h1 : ('1' == c) = false := beq_eq_false_iff_ne.mpr (Ne.symm hc1)
  simp [listLeads, h1]

/-- C9: for a recognized short-link URL whose first path segment is c
    followed by a purely numeric segment, the target is the integer obtained
    by prefixing -100 to that segment; in particular the listed example
    normalizes to -1001234567890. -/
theorem url_c_segment_channel_id :
    (∀ (r : String) (seg : List Char) (rest : List (List Char)),
        urlSchemeHit r = true →
        pyLowerList (urlNetloc r) ∈ domainAliases →
        urlParts r = "c".data :: seg :: rest →
        seg ≠ [] → seg.all Char.isDigit = true →
        ∃ n, pyInt? ("-100".data ++ seg) = some n ∧
          normCore r = ⟨r, Target.i n, none⟩) ∧
      normalize_chat_identifier (ChatInput.ofStr "https://t.me/c/1234567890/99")
        = some ⟨"https://t.me/c/1234567890/99", Target.i (-1001234567890), none⟩ := by
  constructor
  · intro r seg rest hscheme hdom hparts hne hdig
    have hfilter : seg.filter (fun c => c.isDigit || c == '-') = seg := by
      rw [List.filter_eq_self]
      intro a ha
      simp [List.all_eq_true.mp hdig a ha]
    obtain ⟨d, ds, hseg⟩ : ∃ d ds, seg = d :: ds := by
      cases seg with
      | nil => exact absurd rfl hne
      | cons d ds => exact ⟨d, ds, rfl⟩
    have hd_digit : d.isDigit = true := by
      refine List.all_eq_true.mp hdig d ?_
      rw [hseg]
      exact List.mem_cons_self d ds
    have hd_ne : d ≠ '-' := by
      intro he
      rw [he] at hd_digit
      exact absurd hd_digit (by decide)
    have hlead : listLeads "-100".data seg = false := by
      rw [hseg]
      have hb : ('-' == d) = false := beq_eq_false_iff_ne.mpr (Ne.symm hd_ne)
      have hlit : "-100".data = ['-', '1', '0', '0'] := rfl
      rw [hlit]
      simp [listLeads, hb]
    have hdrop : seg.dropWhile (· == '-') = seg := by
      rw [hseg]
      exact List.dropWhile_cons_of_neg (by simp [hd_ne])
    obtain ⟨v, hv⟩ := digitsVal_of_all
      (show ('1' :: '0' :: '0' :: seg) ≠ [] by simp)
      (show ('1' :: '0' :: '0' :: seg).all Char.isDigit = true by simp [hdig])
    have hpy : pyInt? ("-100".data ++ seg) = some (-(v : Int)) := by
      have hlit : "-100".data = ['-', '1', '0', '0'] := rfl
      rw [hlit]
      simp [pyInt?, hv]
    have hct : cTarget seg = some (Target.i (-(v : Int))) := by
      simp only [cTarget]
      rw [hfilter, if_neg hne, if_neg (by simp [hlead]), hdrop, hpy]
    have hurl : urlTry r = some (urlBranch r "c".data (seg :: rest)) := by
      unfold urlTry
      rw [if_pos hscheme, if_pos hdom, hparts]
    have hbr : urlBranch r "c".data (seg :: rest) = ⟨r, Target.i (-(v : Int)), none⟩ := by
      unfold urlBranch
      rw [if_pos rfl]
      simp only [hct]
    refine ⟨-(v : Int), hpy, ?_⟩
    unfold normCore
    rw [if_neg (by simp [urlSchemeHit_not_channel hscheme]), hurl, hbr]
  · decide

/-- C9 witness: the general branch applied to the t.me example URL. -/
theorem url_c_segment_channel_id_witness :
    ∃ n, pyInt? ("-100".data ++ "1234567890".data) = some n ∧
      normCore "https://t.me/c/1234567890/99"
        = ⟨"https://t.me/c/1234567890/99", Target.i n, none⟩ := by
  exact url_c_segment_channel_id.1 "https://t.me/c/1234567890/99" "1234567890".data
    ["99".data] (by decide) (by decide) (by decide) (by decide) (by decide)
